import Mathlib

/-!
Shallow embedding of the tool-calling conversation loop of
`api/services/llm_client.py` (`LLMClient.generate` and its helpers) and of
the history store `api/services/in_memory_store.py` (`InMemoryStore`).

Modelling conventions:
* A Python message dict is the structure `Message`; absent keys are the
  field defaults (`""`, `none`, `[]`).  The vendor field
  `reasoning_content` is an explicit `Option String` field so that the
  stripping step (lines 148-149 of `llm_client.py`) is observable.
* External dependencies (the HTTP gateway, `json.loads`, the registered
  tool callables, `json.dumps`/`str` serialisation) are parameters of the
  embedding: the gateway is a function from the call index to the parsed
  response body, `json.loads` is an abstract `String → Except String α`
  (the `Except.error` payload is the exception text used in the source's
  f-strings), and a tool callable is a function from the parsed argument
  value to an outcome that either returns a Python value or raises.
* Python truthiness is translated where the source relies on it:
  `if tool_calls:` is `tool_calls ≠ []`, `if instructions` / `if name` /
  `raw_args or "{}"` test for `none`/empty string, `if response_schema:`
  becomes a Boolean "a truthy schema was supplied".
* The store keys histories by thread id; `generate` only ever touches the
  one thread it was given, so the loop is embedded over that thread's
  message list.  The store's async lock and the sync/async duality of
  tool callables (`_is_async_callable`) have no observable effect in a
  single-writer run and are collapsed: both callable shapes become one
  Lean function.
-/

/-- One entry of the `tool_calls` array of an assistant message:
`tool_call.get("id")`, `tool_call.get("function", {}).get("name")` and
`tool_call.get("function", {}).get("arguments", "{}")`.  `none` stands for
an absent key or a JSON `null` value; an absent `arguments` key is mapped
to `"{}"` by `effectiveRawArgs` below, matching the dict default. -/
structure ToolCall where
  id : Option String := none
  fname : Option String := none
  arguments : Option String := none
deriving Repr, DecidableEq

/-- A message dict of the conversation history (`role`, `content`,
`tool_call_id`, `name`, `tool_calls`, plus the vendor field
`reasoning_content`).  Field defaults model absent keys:
`response_msg.get("content", "")` reads `content` with default `""`,
`response_msg.get("tool_calls")` is falsy exactly when `tool_calls = []`. -/
structure Message where
  role : String := ""
  content : String := ""
  tool_call_id : Option String := none
  name : Option String := none
  tool_calls : List ToolCall := []
  reasoning_content : Option String := none
deriving Repr, DecidableEq

/-- The `definition` dict built by `register_tool` (lines 50-57): the
parameter schema is opaque to the loop and omitted. -/
structure ToolDef where
  name : String := ""
  description : String := ""
deriving Repr, DecidableEq

/-- A Python value as far as `_stringify_tool_result` can observe it: a
dict/list together with its `json.dumps(value, ensure_ascii=False)`
rendering, or any other value together with its `str(value)` rendering. -/
inductive PyValue where
  | jsonContainer (dumps : String)
  | other (s : String)
deriving Repr, DecidableEq

/-- Outcome of invoking a registered callable: a returned Python value or
a raised exception carrying its message text (`except Exception as exc`). -/
inductive ToolOutcome where
  | ok (v : PyValue)
  | raised (msg : String)
deriving Repr, DecidableEq

/-- Model of `LLMClient._stringify_tool_result` (lines 93-98). -/
def stringifyToolResult : PyValue → String
  | .jsonContainer d => d
  | .other s => s

/-- One registry entry: the bound callable and the API `definition` dict
(`self.tool_registry[tool_name]`, lines 48-58).  `α` is the type of parsed
JSON argument objects. -/
structure ToolEntry (α : Type) where
  run : α → ToolOutcome
  definition : ToolDef

/-- The external world `generate` runs against: the abstract `json.loads`
and the tool registry.  `parseJSON` returns `Except.error e` where `e` is
the `json.JSONDecodeError` text interpolated into the source's f-string. -/
structure Env (α : Type) where
  parseJSON : String → Except String α
  registry : List (String × ToolEntry α)

/-- The parsed body of one 2xx gateway response:
`data.get("choices") or []`, each element already collapsed to
`choice.get("message") or {}` (a missing message is the all-default
`Message`). -/
structure GatewayResponse where
  choices : List Message := []
deriving Repr, DecidableEq

/-- The request payload of one gateway call (lines 124-134): `model` and
`messages` always, `tools` only when the built catalog is nonempty
(`if api_tools:`), `response_format` only when a truthy `response_schema`
was supplied.  Extra `**kwargs` are opaque and omitted. -/
structure Payload where
  model : String
  messages : List Message
  tools : Option (List ToolDef) := none
  response_format : Bool := false
deriving Repr, DecidableEq

/-- Errors that abort a `generate` call: `raise RuntimeError(f"No choices
return: {data}")` on an empty `choices` list (line 143). -/
inductive GenError where
  | noChoices
deriving Repr, DecidableEq

/-- The value `generate` returns to its caller: a parsed structured value
(`json.loads(content)` under a response schema) or a plain string. -/
inductive GenReturn (α : Type) where
  | parsed (v : α)
  | text (s : String)
deriving Repr, DecidableEq

deriving instance DecidableEq for Except

/-- Result of a whole `generate` call: the returned value or the raised
error, the final stored history of the thread, and the list of request
payloads sent to the gateway, in order. -/
structure GenOutcome (α : Type) where
  result : Except GenError (GenReturn α)
  history : List Message
  requests : List Payload
deriving Repr, DecidableEq

/-- Client configuration: constructor arguments `model_name` and
`instructions` (lines 13-29). -/
structure Config where
  modelName : String := ""
  instructions : Option String := none
deriving Repr, DecidableEq

/-- Model of `self._system_message` (lines 27-29): `{"role": "system", "content":
instructions} if instructions else None`; an empty instruction string is
falsy. -/
def mkSystemMessage (instructions : Option String) : Option Message :=
  match instructions with
  | none => none
  | some s => if s = "" then none else some { role := "system", content := s }

/-- Model of `LLMClient._ensure_system_message` (lines 75-84) acting on the
thread's history: prepend the configured system message unless there is
none or the first stored message already has role `"system"`. -/
def ensureSystemMessage (sys : Option Message) (history : List Message) :
    List Message :=
  match sys with
  | none => history
  | some m =>
    match history with
    | [] => m :: history
    | first :: _ => if first.role = "system" then history else m :: history

/-- Model of `raw_args or "{}"` fed to `json.loads` (line 185), with the
dict default `"{}"` for an absent `arguments` key (line 162). -/
def effectiveRawArgs (a : Option String) : String :=
  match a with
  | none => "{}"
  | some s => if s = "" then "{}" else s

/-- How an f-string renders the optional function name: Python prints
`None` for an absent name. -/
def displayName (n : Option String) : String :=
  match n with
  | none => "None"
  | some s => s

/-- Model of `func_name or "unknown"` (line 175): the `name` field of the tool
message for an unresolved call. -/
def fallbackName (n : Option String) : String :=
  match n with
  | none => "unknown"
  | some s => if s = "" then "unknown" else s

/-- The f-string of line 166-168. -/
def unknownToolMsg (fn : Option String) : String :=
  "Error: Requested tool " ++ "\x27" ++ displayName fn ++ "\x27" ++
    " is not registered."

/-- The f-string of line 187. -/
def invalidJsonMsg (fn e : String) : String :=
  "Error: invalid JSON for tool " ++ "\x27" ++ fn ++ "\x27" ++ ": " ++ e

/-- The f-string of line 206. -/
def execErrorMsg (fn e : String) : String :=
  "Error executing tool " ++ "\x27" ++ fn ++ "\x27" ++ ": " ++ e

/-- The guard `if not func_name or func_name not in self.tool_registry`
(line 165), returned positively: the registry entry for a truthy,
registered name. -/
def resolveTool {α : Type} (env : Env α) (fn : Option String) :
    Option (String × ToolEntry α) :=
  match fn with
  | none => none
  | some n =>
    if n = "" then none
    else (env.registry.lookup n).map (fun e => (n, e))

/-- Per-tool-call dispatch (lines 160-217): produce the single tool-role
message appended for one entry of `tool_calls`, whichever branch
(unresolved name, malformed JSON arguments, raising callable, success)
is taken. -/
def dispatchToolCall {α : Type} (env : Env α) (tc : ToolCall) : Message :=
  match resolveTool env tc.fname with
  | none =>
    { role := "tool", tool_call_id := tc.id,
      name := some (fallbackName tc.fname),
      content := stringifyToolResult (.other (unknownToolMsg tc.fname)) }
  | some (fn, entry) =>
    match env.parseJSON (effectiveRawArgs tc.arguments) with
    | .error e =>
      { role := "tool", tool_call_id := tc.id, name := some fn,
        content := stringifyToolResult (.other (invalidJsonMsg fn e)) }
    | .ok args =>
      let result : PyValue :=
        match entry.run args with
        | .ok v => v
        | .raised e => .other (execErrorMsg fn e)
      { role := "tool", tool_call_id := tc.id, name := some fn,
        content := stringifyToolResult result }

/-- Deletion of the vendor field (lines 148-149): `del
response_msg["reasoning_content"]` when present (a no-op when absent). -/
def stripReasoning (m : Message) : Message :=
  { m with reasoning_content := none }

/-- The tool catalog built once before the loop (lines 115-119): the
`definition` of every enabled name that is registered, in the order the
names were requested; unknown names are dropped.  `none` models a falsy
`enabled_tool_names`. -/
def buildApiTools {α : Type} (registry : List (String × ToolEntry α))
    (enabled : Option (List String)) : List ToolDef :=
  match enabled with
  | none => []
  | some names =>
    (names.filterMap (fun n => (registry.lookup n).map (·.definition)))

/-- Sentinel returned when the last allowed iteration still carries tool
calls (line 156). -/
def pendingSentinel : String :=
  "Max tool iterations reached before executing requested tools."

/-- Sentinel returned when the `for` loop falls through (line 232). -/
def exhaustedSentinel : String :=
  "Max tool iterations exhausted without completion."

/-- The payload of one iteration's gateway call (lines 124-134). -/
def mkPayload (cfg : Config) (apiTools : List ToolDef)
    (responseSchema : Bool) (messages : List Message) : Payload :=
  { model := cfg.modelName, messages := messages,
    tools := if apiTools = [] then none else some apiTools,
    response_format := responseSchema }

/-- The `for i in range(max_tool_iterations)` loop of `generate`
(lines 121-232), one thread's history threaded explicitly.  `fuel` is the
number of iterations still available, `i` the Python loop index (so
`fuel = max(maxIter, 0) - i` throughout a run), `reqs` the payloads sent
so far.  Each iteration re-reads the history, posts one payload, checks
`choices`, strips the reasoning field, and either executes the tool
calls, stops on the last-iteration guard `i >= max_tool_iterations - 1`,
or appends the final message and returns its content. -/
def genLoop {α : Type} (cfg : Config) (env : Env α)
    (gateway : Nat → GatewayResponse) (apiTools : List ToolDef)
    (responseSchema : Bool) (maxIter : Int) :
    Nat → Nat → List Message → List Payload → GenOutcome α
  | 0, _, history, reqs =>
    ⟨.ok (.text exhaustedSentinel), history, reqs⟩
  | fuel + 1, i, history, reqs =>
    let reqs := reqs ++ [mkPayload cfg apiTools responseSchema history]
    match (gateway i).choices with
    | [] => ⟨.error .noChoices, history, reqs⟩
    | choice :: _ =>
      let msg := stripReasoning choice
      if msg.tool_calls = [] then
        let history := history ++ [msg]
        if responseSchema then
          match env.parseJSON msg.content with
          | .ok v => ⟨.ok (.parsed v), history, reqs⟩
          | .error _ => ⟨.ok (.text msg.content), history, reqs⟩
        else ⟨.ok (.text msg.content), history, reqs⟩
      else
        if (i : Int) ≥ maxIter - 1 then
          ⟨.ok (.text pendingSentinel), history ++ [msg], reqs⟩
        else
          genLoop cfg env gateway apiTools responseSchema maxIter fuel
            (i + 1) (history ++ [msg] ++ msg.tool_calls.map (dispatchToolCall env))
            reqs

/-- The user message appended at line 112-113. -/
def userMessage (prompt : String) : Message :=
  { role := "user", content := prompt }

/-- Model of `LLMClient.generate` (lines 100-232) on one thread whose stored
history is `history0`: ensure the system message, append the user turn,
build the tool catalog once, then run the iteration loop.  `range(n)` is
empty for `n <= 0`, hence the fuel `maxIter.toNat`. -/
def generate {α : Type} (cfg : Config) (env : Env α)
    (gateway : Nat → GatewayResponse) (prompt : String)
    (history0 : List Message) (enabledToolNames : Option (List String))
    (maxIter : Int) (responseSchema : Bool) : GenOutcome α :=
  let history1 := ensureSystemMessage (mkSystemMessage cfg.instructions) history0
  let history2 := history1 ++ [userMessage prompt]
  let apiTools := buildApiTools env.registry enabledToolNames
  genLoop cfg env gateway apiTools responseSchema maxIter maxIter.toNat 0
    history2 []

/-- Model of `InMemoryStore.truncate` (lines 27-34 of `in_memory_store.py`) on one
thread's message list: a no-op for `max_messages <= 0`, otherwise keep
the last `max_messages` entries (`msgs[-max_messages:]`) when the list is
longer than that. -/
def truncateHistory (msgs : List Message) (maxMessages : Int) :
    List Message :=
  if maxMessages ≤ 0 then msgs
  else if (msgs.length : Int) > maxMessages then
    msgs.drop (msgs.length - maxMessages.toNat)
  else msgs

/-- The store's per-thread map `self._data`, as a total function that is
`[]` on absent ids (`self._data.get(thread_id, [])`). -/
def Store := String → List Message

/-- Model of `InMemoryStore.truncate` on the whole store: only the given thread's
history changes. -/
def storeTruncate (s : Store) (threadId : String) (maxMessages : Int) :
    Store :=
  fun k => if k = threadId then truncateHistory (s threadId) maxMessages else s k

/-! ### Concrete fixtures used by the witnesses -/

/-- A registered tool that always returns the string `"done"`. -/
def echoEntry : ToolEntry Nat :=
  { run := fun _ => .ok (.other "done"),
    definition := { name := "echo", description := "echo tool" } }

/-- A sample environment: `json.loads` accepts exactly `"{}"` (parsed to
`0`) and one registered tool named `"echo"`. -/
def sampleEnv : Env Nat :=
  { parseJSON := fun s => if s = "{}" then .ok 0 else .error "bad json",
    registry := [("echo", echoEntry)] }

def sampleCfg : Config :=
  { modelName := "m", instructions := some "be helpful" }

def sampleToolCall : ToolCall :=
  { id := some "call-1", fname := some "echo", arguments := some "{}" }

/-- A gateway stub whose every response carries one tool call. -/
def toolGateway : Nat → GatewayResponse :=
  fun _ =>
    { choices := [{ role := "assistant", tool_calls := [sampleToolCall],
                    reasoning_content := some "thinking" }] }

/-- A gateway stub whose first response is a plain text answer. -/
def textGateway : Nat → GatewayResponse :=
  fun _ => { choices := [{ role := "assistant", content := "not json" }] }

/-- A gateway stub that returns zero choices. -/
def emptyGateway : Nat → GatewayResponse := fun _ => { choices := [] }

def sampleMsgs : List Message :=
  [{ role := "system" }, { role := "user" }, { role := "assistant" }]

def sampleStore : Store := fun t => if t = "t1" then sampleMsgs else []

def toolCallA : ToolCall :=
  { id := some "A", fname := some "echo", arguments := some "{}" }

def toolCallB : ToolCall :=
  { id := some "B", fname := some "nope", arguments := some "{}" }

def twoCallMsg : Message :=
  { role := "assistant", tool_calls := [toolCallA, toolCallB] }

def twoCallGateway : Nat → GatewayResponse :=
  fun _ => { choices := [twoCallMsg] }

def boomEntry : ToolEntry Nat :=
  { run := fun _ => .raised "exploded",
    definition := { name := "boom", description := "raises" } }

def raisingEnv : Env Nat :=
  { parseJSON := fun s => if s = "{}" then .ok 0 else .error "bad json",
    registry := [("boom", boomEntry)] }

def badArgsCall : ToolCall :=
  { id := some "C", fname := some "echo", arguments := some "not json" }

def boomCall : ToolCall :=
  { id := some "D", fname := some "boom", arguments := some "{}" }

def reasoningMsg : Message :=
  { role := "assistant", content := "answer",
    reasoning_content := some "chain of thought" }

/-- Every system-role message of the history sits at index 0. -/
def systemOnlyAtHead (h : List Message) : Prop :=
  ∀ m ∈ h.drop 1, m.role ≠ "system"

/-- Number of system-role messages stored in the history. -/
def systemCount (h : List Message) : Nat :=
  h.countP (fun m => m.role == "system")

/-! ### Loop step lemmas -/

theorem genLoop_zero {α : Type} (cfg : Config) (env : Env α)
    (gateway : Nat → GatewayResponse) (apiTools : List ToolDef)
    (schema : Bool) (maxIter : Int) (i : Nat) (history : List Message)
    (reqs : List Payload) :
    genLoop cfg env gateway apiTools schema maxIter 0 i history reqs =
      ⟨.ok (.text exhaustedSentinel), history, reqs⟩ := rfl

theorem genLoop_noChoices {α : Type} (cfg : Config) (env : Env α)
    (gateway : Nat → GatewayResponse) (apiTools : List ToolDef)
    (schema : Bool) (maxIter : Int) (fuel i : Nat) (history : List Message)
    (reqs : List Payload) (h : (gateway i).choices = []) :
    genLoop cfg env gateway apiTools schema maxIter (fuel + 1) i history reqs =
      ⟨.error .noChoices, history,
       reqs ++ [mkPayload cfg apiTools schema history]⟩ := by
  simp [genLoop, h]

theorem genLoop_final {α : Type} (cfg : Config) (env : Env α)
    (gateway : Nat → GatewayResponse) (apiTools : List ToolDef)
    (schema : Bool) (maxIter : Int) (fuel i : Nat) (history : List Message)
    (reqs : List Payload) (m : Message) (rest : List Message)
    (h : (gateway i).choices = m :: rest)
    (ht : (stripReasoning m).tool_calls = []) :
    genLoop cfg env gateway apiTools schema maxIter (fuel + 1) i history reqs =
      (if schema then
        match env.parseJSON (stripReasoning m).content with
        | .ok v =>
          ⟨.ok (.parsed v), history ++ [stripReasoning m],
           reqs ++ [mkPayload cfg apiTools schema history]⟩
        | .error _ =>
          ⟨.ok (.text (stripReasoning m).content), history ++ [stripReasoning m],
           reqs ++ [mkPayload cfg apiTools schema history]⟩
      else
        ⟨.ok (.text (stripReasoning m).content), history ++ [stripReasoning m],
         reqs ++ [mkPayload cfg apiTools schema history]⟩) := by
  simp only [genLoop, h, ht]
  rfl

theorem genLoop_lastIter {α : Type} (cfg : Config) (env : Env α)
    (gateway : Nat → GatewayResponse) (apiTools : List ToolDef)
    (schema : Bool) (maxIter : Int) (fuel i : Nat) (history : List Message)
    (reqs : List Payload) (m : Message) (rest : List Message)
    (h : (gateway i).choices = m :: rest)
    (ht : (stripReasoning m).tool_calls ≠ [])
    (hla : (i : Int) ≥ maxIter - 1) :
    genLoop cfg env gateway apiTools schema maxIter (fuel + 1) i history reqs =
      ⟨.ok (.text pendingSentinel), history ++ [stripReasoning m],
       reqs ++ [mkPayload cfg apiTools schema history]⟩ := by
  simp [genLoop, h, ht, hla]

theorem genLoop_toolStep {α : Type} (cfg : Config) (env : Env α)
    (gateway : Nat → GatewayResponse) (apiTools : List ToolDef)
    (schema : Bool) (maxIter : Int) (fuel i : Nat) (history : List Message)
    (reqs : List Payload) (m : Message) (rest : List Message)
    (h : (gateway i).choices = m :: rest)
    (ht : (stripReasoning m).tool_calls ≠ [])
    (hlt : ¬ ((i : Int) ≥ maxIter - 1)) :
    genLoop cfg env gateway apiTools schema maxIter (fuel + 1) i history reqs =
      genLoop cfg env gateway apiTools schema maxIter fuel (i + 1)
        (history ++ [stripReasoning m] ++
          (stripReasoning m).tool_calls.map (dispatchToolCall env))
        (reqs ++ [mkPayload cfg apiTools schema history]) := by
  simp [genLoop, h, ht, hlt]

/-- Whatever branch is taken, the dispatched message is a tool-role
message carrying the originating call id, a name and a content string. -/
theorem dispatchToolCall_shape {α : Type} (env : Env α) (tc : ToolCall) :
    ∃ nm ct, dispatchToolCall env tc =
      { role := "tool", tool_call_id := tc.id, name := some nm,
        content := ct } := by
  rcases h : resolveTool env tc.fname with _ | ⟨fn, entry⟩
  · refine ⟨fallbackName tc.fname,
      stringifyToolResult (.other (unknownToolMsg tc.fname)), ?_⟩
    simp [dispatchToolCall, h]
  · rcases hp : env.parseJSON (effectiveRawArgs tc.arguments) with e | args
    · refine ⟨fn, stringifyToolResult (.other (invalidJsonMsg fn e)), ?_⟩
      simp [dispatchToolCall, h, hp]
    · refine ⟨fn,
        stringifyToolResult
          (match entry.run args with
           | .ok v => v
           | .raised e => .other (execErrorMsg fn e)), ?_⟩
      simp [dispatchToolCall, h, hp]

theorem dispatchToolCall_role {α : Type} (env : Env α) (tc : ToolCall) :
    (dispatchToolCall env tc).role = "tool" := by
  obtain ⟨nm, ct, h⟩ := dispatchToolCall_shape env tc
  rw [h]

theorem dispatchToolCall_id {α : Type} (env : Env α) (tc : ToolCall) :
    (dispatchToolCall env tc).tool_call_id = tc.id := by
  obtain ⟨nm, ct, h⟩ := dispatchToolCall_shape env tc
  rw [h]


/-! ### Auxiliary lemmas about the system message -/

theorem mkSystemMessage_role (instr : Option String) (sm : Message)
    (h : mkSystemMessage instr = some sm) : sm.role = "system" := by
  cases instr with
  | none => simp [mkSystemMessage] at h
  | some s =>
    by_cases hs : s = "" <;> simp [mkSystemMessage, hs] at h
    rw [← h]

theorem ensureSystemMessage_head (sm : Message) (history : List Message)
    (hr : sm.role = "system") :
    (ensureSystemMessage (some sm) history).head?.map Message.role =
      some "system" := by
  cases history with
  | nil => simp [ensureSystemMessage, hr]
  | cons first rest =>
    by_cases hf : first.role = "system" <;>
      simp [ensureSystemMessage, hf, hr]

theorem ensureSystemMessage_ne_nil (sm : Message) (history : List Message) :
    ensureSystemMessage (some sm) history ≠ [] := by
  cases history with
  | nil => simp [ensureSystemMessage]
  | cons first rest =>
    by_cases hf : first.role = "system" <;> simp [ensureSystemMessage, hf]

/-! ### C9 — truncate boundary -/

/-- Claim C9: for every store, thread id and integer bound `k`: `truncate` with
`k ≤ 0` leaves the thread's history unchanged; with `0 < k` and a history
of length at most `k` it is unchanged; with a longer history exactly
`k.toNat` messages remain and they are a suffix of the original history
(last `k` entries, original order); other threads are untouched. -/
theorem truncate_boundary (s : Store) (threadId : String) (k : Int) :
    (k ≤ 0 → storeTruncate s threadId k threadId = s threadId) ∧
    (0 < k → ((s threadId).length : Int) ≤ k →
      storeTruncate s threadId k threadId = s threadId) ∧
    (0 < k → k < ((s threadId).length : Int) →
      (storeTruncate s threadId k threadId).length = k.toNat ∧
      ∃ dropped, s threadId = dropped ++ storeTruncate s threadId k threadId) ∧
    (∀ other, other ≠ threadId → storeTruncate s threadId k other = s other) := by
  refine ⟨?_, ?_, ?_, ?_⟩
  · intro hk
    simp [storeTruncate, truncateHistory, hk]
  · intro hk hlen
    have h1 : ¬ k ≤ 0 := by omega
    have h2 : ¬ (((s threadId).length : Int) > k) := by omega
    simp [storeTruncate, truncateHistory, h1, h2]
  · intro hk hlen
    have h1 : ¬ k ≤ 0 := by omega
    have h2 : ((s threadId).length : Int) > k := by omega
    have h3 : k.toNat ≤ (s threadId).length := by omega
    constructor
    · simp [storeTruncate, truncateHistory, h1, h2]
      omega
    · refine ⟨(s threadId).take ((s threadId).length - k.toNat), ?_⟩
      simp [storeTruncate, truncateHistory, h1, h2]
  · intro other ho
    simp [storeTruncate, ho]


theorem truncate_boundary_witness :
    (storeTruncate sampleStore "t1" (-1) "t1" = sampleStore "t1") ∧
    (storeTruncate sampleStore "t1" 5 "t1" = sampleStore "t1") ∧
    ((storeTruncate sampleStore "t1" 2 "t1").length = (2 : Int).toNat ∧
      ∃ dropped,
        sampleStore "t1" = dropped ++ storeTruncate sampleStore "t1" 2 "t1") ∧
    (storeTruncate sampleStore "t1" 2 "t2" = sampleStore "t2") :=
  ⟨(truncate_boundary sampleStore "t1" (-1)).1 (by decide),
   (truncate_boundary sampleStore "t1" 5).2.1 (by decide) (by decide),
   (truncate_boundary sampleStore "t1" 2).2.2.1 (by decide) (by decide),
   (truncate_boundary sampleStore "t1" 2).2.2.2 "t2" (by decide)⟩

/-! ### C10 — non-positive iteration budget -/

/-- Claim C10: with `max_tool_iterations ≤ 0` the loop body never runs:
`generate` performs zero gateway calls (`requests = []`) yet still
mutates the conversation — the system message is ensured and the user
turn `{role: user, content: prompt}` appended — and returns the literal
exhaustion string; whenever a system instruction is configured, the
resulting history starts with a system-role message. -/
theorem nonpositive_budget (cfg : Config) (env : Env Nat)
    (gateway : Nat → GatewayResponse) (prompt : String)
    (history0 : List Message) (enabled : Option (List String))
    (maxIter : Int) (schema : Bool) (h : maxIter ≤ 0) :
    generate cfg env gateway prompt history0 enabled maxIter schema =
      ⟨.ok (.text "Max tool iterations exhausted without completion."),
       ensureSystemMessage (mkSystemMessage cfg.instructions) history0 ++
         [userMessage prompt], []⟩ ∧
    (∀ sm, mkSystemMessage cfg.instructions = some sm →
      (generate cfg env gateway prompt history0 enabled maxIter
          schema).history.head?.map Message.role = some "system") := by
  have h0 : maxIter.toNat = 0 := by omega
  constructor
  · simp [generate, h0, genLoop, exhaustedSentinel]
  · intro sm hsm
    have hrole := mkSystemMessage_role cfg.instructions sm hsm
    have hne := ensureSystemMessage_ne_nil sm history0
    simp only [generate, h0, genLoop, hsm]
    rw [List.head?_append_of_ne_nil _ hne]
    exact ensureSystemMessage_head sm history0 hrole

theorem nonpositive_budget_witness :
    (generate sampleCfg sampleEnv toolGateway "hi" [] none 0 false =
      ⟨.ok (.text "Max tool iterations exhausted without completion."),
       ensureSystemMessage (mkSystemMessage sampleCfg.instructions) [] ++
         [userMessage "hi"], []⟩) ∧
    (generate sampleCfg sampleEnv toolGateway "hi" [] none 0
        false).history.head?.map Message.role = some "system" :=
  ⟨(nonpositive_budget sampleCfg sampleEnv toolGateway "hi" [] none 0 false
      (by decide)).1,
   (nonpositive_budget sampleCfg sampleEnv toolGateway "hi" [] none 0 false
      (by decide)).2 { role := "system", content := "be helpful" } (by decide)⟩

/-! ### C7 — zero choices fail hard -/

/-- Claim C7: when a gateway response parses to zero choices, the iteration
raises the operation failure to the caller, performs no retry (exactly
the one request for that iteration is added and the loop stops), and
appends no assistant or tool message: at loop level the history is
returned exactly as it was at the start of the iteration, and at
`generate` level (first response empty) the final history is just the
ensured system message plus the user turn, after exactly one request. -/
theorem zero_choices_fails_hard (cfg : Config) (env : Env Nat)
    (gateway : Nat → GatewayResponse) (apiTools : List ToolDef)
    (schema : Bool) (maxIter : Int) (prompt : String)
    (history0 : List Message) (enabled : Option (List String)) :
    (∀ fuel i history reqs, (gateway i).choices = [] →
      genLoop cfg env gateway apiTools schema maxIter (fuel + 1) i history
          reqs =
        ⟨.error .noChoices, history,
         reqs ++ [mkPayload cfg apiTools schema history]⟩) ∧
    (1 ≤ maxIter → (gateway 0).choices = [] →
      (generate cfg env gateway prompt history0 enabled maxIter
          schema).result = .error .noChoices ∧
      (generate cfg env gateway prompt history0 enabled maxIter
          schema).history =
        ensureSystemMessage (mkSystemMessage cfg.instructions) history0 ++
          [userMessage prompt] ∧
      (generate cfg env gateway prompt history0 enabled maxIter
          schema).requests.length = 1) := by
  constructor
  · intro fuel i history reqs h
    exact genLoop_noChoices cfg env gateway apiTools schema maxIter fuel i
      history reqs h
  · intro hmax h0
    obtain ⟨t, ht⟩ : ∃ t, maxIter.toNat = t + 1 := ⟨maxIter.toNat - 1, by omega⟩
    simp only [generate, ht]
    rw [genLoop_noChoices cfg env gateway
      (buildApiTools env.registry enabled) schema maxIter t 0 _ [] h0]
    simp

theorem zero_choices_fails_hard_witness :
    (genLoop sampleCfg sampleEnv emptyGateway [] false 3 3 0
        [userMessage "hi"] [] =
      ⟨.error .noChoices, [userMessage "hi"],
       [] ++ [mkPayload sampleCfg [] false [userMessage "hi"]]⟩) ∧
    ((generate sampleCfg sampleEnv emptyGateway "hi" [] none 3
        false).result = .error .noChoices ∧
     (generate sampleCfg sampleEnv emptyGateway "hi" [] none 3
        false).history =
       ensureSystemMessage (mkSystemMessage sampleCfg.instructions) [] ++
         [userMessage "hi"] ∧
     (generate sampleCfg sampleEnv emptyGateway "hi" [] none 3
        false).requests.length = 1) :=
  ⟨(zero_choices_fails_hard sampleCfg sampleEnv emptyGateway [] false 3 "hi"
      [] none).1 2 0 [userMessage "hi"] [] (by decide),
   (zero_choices_fails_hard sampleCfg sampleEnv emptyGateway [] false 3 "hi"
      [] none).2 (by decide) (by decide)⟩

/-! ### C8 — reasoning field stripped before storage -/

/-- Claim C8: the returned assistant message has its vendor `reasoning_content`
field removed before being appended, and every other field (`role`,
`content`, `tool_call_id`, `name`, `tool_calls`) is stored unchanged; on
a final iteration and on the last-allowed iteration with pending tool
calls, the message appended to history is exactly the stripped one. -/
theorem reasoning_stripped (m : Message) :
    (stripReasoning m).reasoning_content = none ∧
    (stripReasoning m).role = m.role ∧
    (stripReasoning m).content = m.content ∧
    (stripReasoning m).tool_call_id = m.tool_call_id ∧
    (stripReasoning m).name = m.name ∧
    (stripReasoning m).tool_calls = m.tool_calls ∧
    (∀ (cfg : Config) (env : Env Nat) (gateway : Nat → GatewayResponse)
        (apiTools : List ToolDef) (schema : Bool) (maxIter : Int)
        (fuel i : Nat) (history : List Message) (reqs : List Payload)
        (rest : List Message),
      (gateway i).choices = m :: rest →
      m.tool_calls = [] →
      (genLoop cfg env gateway apiTools schema maxIter (fuel + 1) i history
          reqs).history = history ++ [stripReasoning m]) ∧
    (∀ (cfg : Config) (env : Env Nat) (gateway : Nat → GatewayResponse)
        (apiTools : List ToolDef) (schema : Bool) (maxIter : Int)
        (fuel i : Nat) (history : List Message) (reqs : List Payload)
        (rest : List Message),
      (gateway i).choices = m :: rest →
      m.tool_calls ≠ [] →
      (i : Int) ≥ maxIter - 1 →
      (genLoop cfg env gateway apiTools schema maxIter (fuel + 1) i history
          reqs).history = history ++ [stripReasoning m]) := by
  refine ⟨rfl, rfl, rfl, rfl, rfl, rfl, ?_, ?_⟩
  · intro cfg env gateway apiTools schema maxIter fuel i history reqs rest h ht
    have ht' : (stripReasoning m).tool_calls = [] := ht
    rw [genLoop_final cfg env gateway apiTools schema maxIter fuel i history
      reqs m rest h ht']
    by_cases hs : schema = true
    · subst hs
      simp only [if_true]
      rcases env.parseJSON (stripReasoning m).content with e | v <;> rfl
    · simp only [Bool.not_eq_true] at hs
      subst hs
      rfl
  · intro cfg env gateway apiTools schema maxIter fuel i history reqs rest h ht hla
    have ht' : (stripReasoning m).tool_calls ≠ [] := ht
    rw [genLoop_lastIter cfg env gateway apiTools schema maxIter fuel i
      history reqs m rest h ht' hla]


theorem reasoning_stripped_witness :
    (stripReasoning reasoningMsg).reasoning_content = none ∧
    (stripReasoning reasoningMsg).role = reasoningMsg.role ∧
    (stripReasoning reasoningMsg).content = reasoningMsg.content ∧
    (stripReasoning reasoningMsg).tool_call_id = reasoningMsg.tool_call_id ∧
    (stripReasoning reasoningMsg).name = reasoningMsg.name ∧
    (stripReasoning reasoningMsg).tool_calls = reasoningMsg.tool_calls ∧
    (genLoop sampleCfg sampleEnv (fun _ => { choices := [reasoningMsg] }) []
        false 3 3 0 [userMessage "hi"] []).history =
      [userMessage "hi"] ++ [stripReasoning reasoningMsg] := by
  have h := reasoning_stripped reasoningMsg
  exact ⟨h.1, h.2.1, h.2.2.1, h.2.2.2.1, h.2.2.2.2.1, h.2.2.2.2.2.1,
    h.2.2.2.2.2.2.1 sampleCfg sampleEnv (fun _ => { choices := [reasoningMsg] })
      [] false 3 2 0 [userMessage "hi"] [] [] (by decide) (by decide)⟩

/-! ### C5 — structured response fallback -/

/-- Claim C5: when a response schema was requested and the first gateway
response is a final message (no tool calls), `generate` returns the
parsed value when `json.loads` succeeds on its content and the raw text
content when parsing fails; in both cases it returns normally (the
result is `.ok`, never a raised error). -/
theorem structured_fallback (cfg : Config) (env : Env Nat)
    (gateway : Nat → GatewayResponse) (prompt : String)
    (history0 : List Message) (enabled : Option (List String))
    (maxIter : Int) (m : Message) (rest : List Message)
    (hmax : 1 ≤ maxIter) (h0 : (gateway 0).choices = m :: rest)
    (ht : m.tool_calls = []) :
    (∀ v, env.parseJSON m.content = .ok v →
      (generate cfg env gateway prompt history0 enabled maxIter
          true).result = .ok (.parsed v)) ∧
    (∀ e, env.parseJSON m.content = .error e →
      (generate cfg env gateway prompt history0 enabled maxIter
          true).result = .ok (.text m.content)) ∧
    ∃ r, (generate cfg env gateway prompt history0 enabled maxIter
        true).result = .ok r := by
  obtain ⟨t, httn⟩ : ∃ t, maxIter.toNat = t + 1 := ⟨maxIter.toNat - 1, by omega⟩
  have ht' : (stripReasoning m).tool_calls = [] := ht
  simp only [generate, httn]
  rw [genLoop_final cfg env gateway (buildApiTools env.registry enabled) true
    maxIter t 0 _ [] m rest h0 ht']
  rcases hp : env.parseJSON m.content with e | v
  · refine ⟨fun v hv => ?_, fun e' he' => ?_, ?_⟩
    · simp at hv
    · simp [stripReasoning, hp]
    · exact ⟨.text m.content, by simp [stripReasoning, hp]⟩
  · refine ⟨fun v' hv' => ?_, fun e' he' => ?_, ?_⟩
    · injection hv' with hvv
      subst hvv
      simp [stripReasoning, hp]
    · simp at he'
    · exact ⟨.parsed v, by simp [stripReasoning, hp]⟩

theorem structured_fallback_witness :
    (generate sampleCfg sampleEnv textGateway "hi" [] none 3 true).result =
      .ok (.text "not json") :=
  (structured_fallback sampleCfg sampleEnv textGateway "hi" [] none 3
      { role := "assistant", content := "not json" } [] (by decide) (by decide)
      (by decide)).2.1 "bad json" (by decide)

/-! ### C3 — one tool message per call, in call order -/

/-- Claim C3: on a non-final iteration whose assistant message carries tool
calls `t1..tk`, the loop appends the assistant message followed by
exactly one tool-role message per call, in the order of the calls; the
`k`-th appended tool message carries `{tool_call_id, name, content}` with
the id of the `k`-th call, whatever dispatch branch was taken for it. -/
theorem tool_messages_order (cfg : Config) (env : Env Nat)
    (gateway : Nat → GatewayResponse) (apiTools : List ToolDef)
    (schema : Bool) (maxIter : Int) (fuel i : Nat) (history : List Message)
    (reqs : List Payload) (m : Message) (rest : List Message)
    (h : (gateway i).choices = m :: rest) (ht : m.tool_calls ≠ [])
    (hlt : ¬ ((i : Int) ≥ maxIter - 1)) :
    (genLoop cfg env gateway apiTools schema maxIter (fuel + 1) i history
        reqs =
      genLoop cfg env gateway apiTools schema maxIter fuel (i + 1)
        (history ++ [stripReasoning m] ++
          m.tool_calls.map (dispatchToolCall env))
        (reqs ++ [mkPayload cfg apiTools schema history])) ∧
    (m.tool_calls.map (dispatchToolCall env)).length = m.tool_calls.length ∧
    ∀ (k : Nat) (tc : ToolCall), m.tool_calls[k]? = some tc →
      ∃ nm ct, (m.tool_calls.map (dispatchToolCall env))[k]? =
        some { role := "tool", tool_call_id := tc.id, name := some nm,
               content := ct } := by
  refine ⟨?_, List.length_map _ _, ?_⟩
  · exact genLoop_toolStep cfg env gateway apiTools schema maxIter fuel i
      history reqs m rest h ht hlt
  · intro k tc hk
    obtain ⟨nm, ct, hd⟩ := dispatchToolCall_shape env tc
    refine ⟨nm, ct, ?_⟩
    rw [List.getElem?_map, hk]
    simp [hd]


theorem tool_messages_order_witness :
    (genLoop sampleCfg sampleEnv twoCallGateway [] false 3 3 0 [] [] =
      genLoop sampleCfg sampleEnv twoCallGateway [] false 3 2 1
        ([] ++ [stripReasoning twoCallMsg] ++
          twoCallMsg.tool_calls.map (dispatchToolCall sampleEnv))
        ([] ++ [mkPayload sampleCfg [] false []])) ∧
    (twoCallMsg.tool_calls.map (dispatchToolCall sampleEnv)).length =
      twoCallMsg.tool_calls.length ∧
    ∃ nm ct, (twoCallMsg.tool_calls.map (dispatchToolCall sampleEnv))[1]? =
      some { role := "tool", tool_call_id := toolCallB.id, name := some nm,
             content := ct } := by
  have h := tool_messages_order sampleCfg sampleEnv twoCallGateway [] false 3
    2 0 [] [] twoCallMsg [] (by decide) (by decide) (by decide)
  exact ⟨h.1, h.2.1, h.2.2 1 toolCallB (by decide)⟩

/-! ### C4 — per-call failures are contained -/

/-- Claim C4: an unresolved tool name, malformed JSON arguments, or a raising
callable each become an error-string tool message (dispatch moves on to
the next call; it is a total function of the call), and the loop can
only abort with an error when some gateway response had zero choices —
never because of a per-call tool failure. -/
theorem tool_failure_containment (env : Env Nat) (tc : ToolCall) :
    (resolveTool env tc.fname = none →
      dispatchToolCall env tc =
        { role := "tool", tool_call_id := tc.id,
          name := some (fallbackName tc.fname),
          content := unknownToolMsg tc.fname }) ∧
    (∀ (fn : String) (entry : ToolEntry Nat) (e : String),
      resolveTool env tc.fname = some (fn, entry) →
      env.parseJSON (effectiveRawArgs tc.arguments) = .error e →
      dispatchToolCall env tc =
        { role := "tool", tool_call_id := tc.id, name := some fn,
          content := invalidJsonMsg fn e }) ∧
    (∀ (fn : String) (entry : ToolEntry Nat) (args : Nat) (e : String),
      resolveTool env tc.fname = some (fn, entry) →
      env.parseJSON (effectiveRawArgs tc.arguments) = .ok args →
      entry.run args = .raised e →
      dispatchToolCall env tc =
        { role := "tool", tool_call_id := tc.id, name := some fn,
          content := execErrorMsg fn e }) ∧
    (∀ (cfg : Config) (gateway : Nat → GatewayResponse)
        (apiTools : List ToolDef) (schema : Bool) (maxIter : Int)
        (fuel i : Nat) (history : List Message) (reqs : List Payload)
        (err : GenError),
      (genLoop cfg env gateway apiTools schema maxIter fuel i history
          reqs).result = .error err →
      ∃ j, (gateway j).choices = []) := by
  refine ⟨?_, ?_, ?_, ?_⟩
  · intro h
    simp [dispatchToolCall, h, stringifyToolResult]
  · intro fn entry e h hp
    simp [dispatchToolCall, h, hp, stringifyToolResult]
  · intro fn entry args e h hp hr
    simp [dispatchToolCall, h, hp, hr, stringifyToolResult]
  · intro cfg gateway apiTools schema maxIter fuel i history reqs err
    induction fuel generalizing i history reqs with
    | zero =>
      intro herr
      rw [genLoop_zero] at herr
      simp at herr
    | succ f ih =>
      intro herr
      rcases hc : (gateway i).choices with _ | ⟨m, rest⟩
      · exact ⟨i, hc⟩
      · by_cases htc : (stripReasoning m).tool_calls = []
        · rw [genLoop_final cfg env gateway apiTools schema maxIter f i
            history reqs m rest hc htc] at herr
          rcases hq : env.parseJSON (stripReasoning m).content with e | v <;>
            cases schema <;> simp [hq] at herr
        · by_cases hla : (i : Int) ≥ maxIter - 1
          · rw [genLoop_lastIter cfg env gateway apiTools schema maxIter f i
              history reqs m rest hc htc hla] at herr
            simp at herr
          · rw [genLoop_toolStep cfg env gateway apiTools schema maxIter f i
              history reqs m rest hc htc hla] at herr
            exact ih _ _ _ herr


theorem tool_failure_containment_witness :
    (dispatchToolCall sampleEnv toolCallB =
      { role := "tool", tool_call_id := toolCallB.id,
        name := some (fallbackName toolCallB.fname),
        content := unknownToolMsg toolCallB.fname }) ∧
    (dispatchToolCall sampleEnv badArgsCall =
      { role := "tool", tool_call_id := badArgsCall.id, name := some "echo",
        content := invalidJsonMsg "echo" "bad json" }) ∧
    (dispatchToolCall raisingEnv boomCall =
      { role := "tool", tool_call_id := boomCall.id, name := some "boom",
        content := execErrorMsg "boom" "exploded" }) ∧
    ∃ j, (emptyGateway j).choices = [] :=
  ⟨(tool_failure_containment sampleEnv toolCallB).1 rfl,
   (tool_failure_containment sampleEnv badArgsCall).2.1 "echo" echoEntry
     "bad json" rfl rfl,
   (tool_failure_containment raisingEnv boomCall).2.2.1 "boom" boomEntry 0
     "exploded" rfl rfl rfl,
   (tool_failure_containment sampleEnv toolCallB).2.2.2 sampleCfg
     emptyGateway [] false 3 1 0 [] [] .noChoices (by decide)⟩

/-! ### C1 — budget termination -/

theorem genLoop_requests_le (cfg : Config) (env : Env Nat)
    (gateway : Nat → GatewayResponse) (apiTools : List ToolDef)
    (schema : Bool) (maxIter : Int) :
    ∀ (fuel i : Nat) (history : List Message) (reqs : List Payload),
      (genLoop cfg env gateway apiTools schema maxIter fuel i history
          reqs).requests.length ≤ reqs.length + fuel := by
  intro fuel
  induction fuel with
  | zero =>
    intro i history reqs
    rw [genLoop_zero]
    simp
  | succ f ih =>
    intro i history reqs
    rcases hc : (gateway i).choices with _ | ⟨m, rest⟩
    · rw [genLoop_noChoices cfg env gateway apiTools schema maxIter f i
        history reqs hc]
      simp
    · by_cases htc : (stripReasoning m).tool_calls = []
      · rw [genLoop_final cfg env gateway apiTools schema maxIter f i history
          reqs m rest hc htc]
        rcases hq : env.parseJSON (stripReasoning m).content with e | v <;>
          cases schema <;> simp [hq]
      · by_cases hla : (i : Int) ≥ maxIter - 1
        · rw [genLoop_lastIter cfg env gateway apiTools schema maxIter f i
            history reqs m rest hc htc hla]
          simp
        · rw [genLoop_toolStep cfg env gateway apiTools schema maxIter f i
            history reqs m rest hc htc hla]
          have h2 := ih (i + 1)
            (history ++ [stripReasoning m] ++
              (stripReasoning m).tool_calls.map (dispatchToolCall env))
            (reqs ++ [mkPayload cfg apiTools schema history])
          simp at h2 ⊢
          omega

theorem genLoop_allTools (cfg : Config) (env : Env Nat)
    (gateway : Nat → GatewayResponse) (apiTools : List ToolDef)
    (schema : Bool) (maxIter : Int)
    (H : ∀ j, ∃ m rest, (gateway j).choices = m :: rest ∧
      m.tool_calls ≠ []) :
    ∀ (fuel i : Nat) (history : List Message) (reqs : List Payload),
      1 ≤ fuel → (i : Int) + fuel = maxIter →
      (genLoop cfg env gateway apiTools schema maxIter fuel i history
          reqs).result = .ok (.text pendingSentinel) ∧
      (genLoop cfg env gateway apiTools schema maxIter fuel i history
          reqs).requests.length = reqs.length + fuel ∧
      ∃ h m rest, (gateway (i + fuel - 1)).choices = m :: rest ∧
        (genLoop cfg env gateway apiTools schema maxIter fuel i history
            reqs).history = h ++ [stripReasoning m] := by
  intro fuel
  induction fuel with
  | zero => intro i history reqs h1; omega
  | succ f ih =>
    intro i history reqs h1 hfi
    obtain ⟨m, rest, hc, htc⟩ := H i
    have htc' : (stripReasoning m).tool_calls ≠ [] := htc
    rcases Nat.eq_zero_or_pos f with hf | hf
    · subst hf
      have hla : (i : Int) ≥ maxIter - 1 := by push_cast at hfi; omega
      rw [genLoop_lastIter cfg env gateway apiTools schema maxIter 0 i
        history reqs m rest hc htc' hla]
      refine ⟨rfl, by simp, history ++ [], m, rest, ?_, by simp⟩
      simpa using hc
    · have hla : ¬ ((i : Int) ≥ maxIter - 1) := by push_cast at hfi; omega
      rw [genLoop_toolStep cfg env gateway apiTools schema maxIter f i
        history reqs m rest hc htc' hla]
      have hih := ih (i + 1)
        (history ++ [stripReasoning m] ++
          (stripReasoning m).tool_calls.map (dispatchToolCall env))
        (reqs ++ [mkPayload cfg apiTools schema history])
        (by omega) (by push_cast at hfi ⊢; omega)
      obtain ⟨hres, hlen, h', m', rest', hc', hh'⟩ := hih
      refine ⟨hres, ?_, h', m', rest', ?_, hh'⟩
      · simp at hlen ⊢
        omega
      · have : i + 1 + f - 1 = i + (f + 1) - 1 := by omega
        rw [← this]
        exact hc'

/-- Claim C1: the function `generate` never performs more than `max(N, 0)` gateway calls,
for any gateway; and against a gateway whose every response carries tool
calls, with budget `N ≥ 1` it performs exactly `N` gateway calls and then
returns the fixed sentinel of the tools-pending exhaustion path, with the
final history ending in the N-th assistant message itself — the tool
calls of that last response are never dispatched. -/
theorem budget_termination (cfg : Config) (env : Env Nat)
    (gateway : Nat → GatewayResponse) (prompt : String)
    (history0 : List Message) (enabled : Option (List String))
    (schema : Bool) (N : Int) :
    (generate cfg env gateway prompt history0 enabled N
        schema).requests.length ≤ N.toNat ∧
    (1 ≤ N →
      (∀ j, ∃ m rest, (gateway j).choices = m :: rest ∧
        m.tool_calls ≠ []) →
      (generate cfg env gateway prompt history0 enabled N schema).result =
        .ok (.text pendingSentinel) ∧
      (generate cfg env gateway prompt history0 enabled N
          schema).requests.length = N.toNat ∧
      ∃ h m rest, (gateway (N.toNat - 1)).choices = m :: rest ∧
        (generate cfg env gateway prompt history0 enabled N
            schema).history = h ++ [stripReasoning m]) := by
  constructor
  · have h := genLoop_requests_le cfg env gateway
      (buildApiTools env.registry enabled) schema N N.toNat 0
      (ensureSystemMessage (mkSystemMessage cfg.instructions) history0 ++
        [userMessage prompt]) []
    simpa [generate] using h
  · intro hN H
    have h := genLoop_allTools cfg env gateway
      (buildApiTools env.registry enabled) schema N H N.toNat 0
      (ensureSystemMessage (mkSystemMessage cfg.instructions) history0 ++
        [userMessage prompt]) [] (by omega) (by omega)
    obtain ⟨hres, hlen, h', m, rest, hc, hh⟩ := h
    simp only [Nat.zero_add] at hc
    simp only [List.length_nil, Nat.zero_add] at hlen
    exact ⟨hres, hlen, h', m, rest, hc, hh⟩

theorem budget_termination_witness :
    (generate sampleCfg sampleEnv toolGateway "hi" [] none 2
        false).requests.length ≤ (2 : Int).toNat ∧
    ((generate sampleCfg sampleEnv toolGateway "hi" [] none 2 false).result =
      .ok (.text pendingSentinel) ∧
     (generate sampleCfg sampleEnv toolGateway "hi" [] none 2
        false).requests.length = (2 : Int).toNat ∧
     ∃ h m rest, (toolGateway ((2 : Int).toNat - 1)).choices = m :: rest ∧
       (generate sampleCfg sampleEnv toolGateway "hi" [] none 2
           false).history = h ++ [stripReasoning m]) :=
  ⟨(budget_termination sampleCfg sampleEnv toolGateway "hi" [] none false
      2).1,
   (budget_termination sampleCfg sampleEnv toolGateway "hi" [] none false
      2).2 (by decide)
     (fun j => ⟨{ role := "assistant", tool_calls := [sampleToolCall],
                  reasoning_content := some "thinking" }, [], rfl,
       by decide⟩)⟩

/-! ### C2 — exhaustion sentinel distinct from the pending one -/

theorem genLoop_exhaust (cfg : Config) (env : Env Nat)
    (gateway : Nat → GatewayResponse) (apiTools : List ToolDef)
    (schema : Bool) (maxIter : Int) :
    ∀ (fuel i : Nat) (history : List Message) (reqs : List Payload),
      (∀ j, i ≤ j → j < i + fuel →
        ∃ m rest, (gateway j).choices = m :: rest ∧ m.tool_calls ≠ [] ∧
          (j : Int) < maxIter - 1) →
      (genLoop cfg env gateway apiTools schema maxIter fuel i history
          reqs).result = .ok (.text exhaustedSentinel) := by
  intro fuel
  induction fuel with
  | zero =>
    intro i history reqs hH
    rw [genLoop_zero]
  | succ f ih =>
    intro i history reqs hH
    obtain ⟨m, rest, hc, htc, hlt⟩ := hH i (le_refl i) (by omega)
    have htc' : (stripReasoning m).tool_calls ≠ [] := htc
    have hla : ¬ ((i : Int) ≥ maxIter - 1) := by omega
    rw [genLoop_toolStep cfg env gateway apiTools schema maxIter f i history
      reqs m rest hc htc' hla]
    exact ih (i + 1) _ _ (fun j hj1 hj2 => hH j (by omega) (by omega))

/-- Claim C2: in every run in which the budget is exhausted with every
iteration — including the last — producing tool calls that were allowed
to execute (`(j : Int) < maxIter - 1` is exactly the source's guard for
executing them), `generate` returns the fixed sentinel of the final
fall-through, and that sentinel is distinct from the "tools pending but
budget hit" sentinel of the last-iteration guard. -/
theorem exhausted_without_completion (cfg : Config) (env : Env Nat)
    (gateway : Nat → GatewayResponse) (prompt : String)
    (history0 : List Message) (enabled : Option (List String))
    (schema : Bool) (maxIter : Int)
    (H : ∀ j, j < maxIter.toNat →
      ∃ m rest, (gateway j).choices = m :: rest ∧ m.tool_calls ≠ [] ∧
        (j : Int) < maxIter - 1) :
    (generate cfg env gateway prompt history0 enabled maxIter
        schema).result = .ok (.text exhaustedSentinel) ∧
    exhaustedSentinel ≠ pendingSentinel := by
  constructor
  · simp only [generate]
    exact genLoop_exhaust cfg env gateway _ schema maxIter maxIter.toNat 0 _
      [] (fun j hj1 hj2 => H j (by omega))
  · decide

theorem exhausted_without_completion_witness :
    (generate sampleCfg sampleEnv toolGateway "q" [] none 0 false).result =
      .ok (.text exhaustedSentinel) ∧
    exhaustedSentinel ≠ pendingSentinel :=
  exhausted_without_completion sampleCfg sampleEnv toolGateway "q" [] none
    false 0 (fun j hj => absurd hj (by omega))

/-! ### C6 — system message invariant -/


theorem systemCount_le_one (h : List Message) (hh : systemOnlyAtHead h) :
    systemCount h ≤ 1 := by
  cases h with
  | nil => simp [systemCount]
  | cons a t =>
    have ht : ∀ m ∈ t, ¬ ((fun m : Message => m.role == "system") m = true) := by
      intro m hm
      simpa using hh m (by simpa using hm)
    have hz : t.countP (fun m => m.role == "system") = 0 :=
      List.countP_eq_zero.mpr ht
    simp [systemCount, List.countP_cons, hz]
    split <;> simp

theorem systemOnlyAtHead_append (h ext : List Message)
    (hh : systemOnlyAtHead h) (hext : ∀ m ∈ ext, m.role ≠ "system") :
    systemOnlyAtHead (h ++ ext) := by
  intro m hm
  cases h with
  | nil =>
    simp at hm
    exact hext m (List.mem_of_mem_tail hm)
  | cons a t =>
    simp at hm
    rcases hm with hm | hm
    · exact hh m (by simpa using hm)
    · exact hext m hm

theorem systemCount_append_of_no_system (h ext : List Message)
    (hext : ∀ m ∈ ext, m.role ≠ "system") :
    systemCount (h ++ ext) = systemCount h := by
  have hz : ext.countP (fun m => m.role == "system") = 0 :=
    List.countP_eq_zero.mpr (by intro m hm; simpa using hext m hm)
  simp [systemCount, List.countP_append, hz]

theorem ensureSystemMessage_invariant (sys : Option Message)
    (h : List Message) (hh : systemOnlyAtHead h) :
    systemOnlyAtHead (ensureSystemMessage sys h) ∧
    systemCount (ensureSystemMessage sys h) ≤ 1 := by
  cases sys with
  | none => exact ⟨hh, systemCount_le_one h hh⟩
  | some sm =>
    cases h with
    | nil =>
      constructor
      · intro m hm
        simp [ensureSystemMessage] at hm
      · simp [ensureSystemMessage, systemCount, List.countP_cons]
        split <;> simp
    | cons first t =>
      by_cases hf : first.role = "system"
      · rw [show ensureSystemMessage (some sm) (first :: t) = first :: t by
          simp [ensureSystemMessage, hf]]
        exact ⟨hh, systemCount_le_one _ hh⟩
      · rw [show ensureSystemMessage (some sm) (first :: t) =
            sm :: first :: t by simp [ensureSystemMessage, hf]]
        have ht : ∀ m ∈ t, m.role ≠ "system" := by
          intro m hm
          exact hh m (by simpa using hm)
        constructor
        · intro m hm
          simp at hm
          rcases hm with hm | hm
          · subst hm; exact hf
          · exact ht m hm
        · have hz : t.countP (fun m : Message => m.role == "system") = 0 :=
            List.countP_eq_zero.mpr (by intro m hm; simpa using ht m hm)
          simp [systemCount, List.countP_cons, hz, hf]
          split <;> simp

theorem genLoop_history_extension (cfg : Config) (env : Env Nat)
    (gateway : Nat → GatewayResponse) (apiTools : List ToolDef)
    (schema : Bool) (maxIter : Int)
    (Hgw : ∀ j m rest, (gateway j).choices = m :: rest →
      m.role ≠ "system") :
    ∀ (fuel i : Nat) (history : List Message) (reqs : List Payload),
      ∃ ext, (genLoop cfg env gateway apiTools schema maxIter fuel i history
          reqs).history = history ++ ext ∧
        ∀ m ∈ ext, m.role ≠ "system" := by
  intro fuel
  induction fuel with
  | zero =>
    intro i history reqs
    exact ⟨[], by rw [genLoop_zero]; simp, by simp⟩
  | succ f ih =>
    intro i history reqs
    rcases hc : (gateway i).choices with _ | ⟨m, rest⟩
    · exact ⟨[], by
        rw [genLoop_noChoices cfg env gateway apiTools schema maxIter f i
          history reqs hc]
        simp, by simp⟩
    · have hrole : m.role ≠ "system" := Hgw i m rest hc
      by_cases htc : (stripReasoning m).tool_calls = []
      · refine ⟨[stripReasoning m], ?_, ?_⟩
        · rw [genLoop_final cfg env gateway apiTools schema maxIter f i
            history reqs m rest hc htc]
          rcases hq : env.parseJSON (stripReasoning m).content with e | v <;>
            cases schema <;> simp [hq]
        · intro x hx
          simp at hx
          subst hx
          exact hrole
      · by_cases hla : (i : Int) ≥ maxIter - 1
        · refine ⟨[stripReasoning m], ?_, ?_⟩
          · rw [genLoop_lastIter cfg env gateway apiTools schema maxIter f i
              history reqs m rest hc htc hla]
          · intro x hx
            simp at hx
            subst hx
            exact hrole
        · obtain ⟨ext, hext, hroles⟩ := ih (i + 1)
            (history ++ [stripReasoning m] ++
              (stripReasoning m).tool_calls.map (dispatchToolCall env))
            (reqs ++ [mkPayload cfg apiTools schema history])
          refine ⟨[stripReasoning m] ++
            (stripReasoning m).tool_calls.map (dispatchToolCall env) ++ ext,
            ?_, ?_⟩
          · rw [genLoop_toolStep cfg env gateway apiTools schema maxIter f i
              history reqs m rest hc htc hla, hext]
            simp
          · intro x hx
            simp at hx
            rcases hx with hx | ⟨tc, htc2, htcx⟩ | hx
            · subst hx; exact hrole
            · rw [← htcx, dispatchToolCall_role]
              decide
            · exact hroles x hx

/-- Claim C6: in a run without external mutation, when every gateway message
has a non-system role, one `generate` call preserves the invariant that
system-role messages only ever sit at index 0, leaves at most one
system-role message in the stored history, puts a system-role message at
index 0 whenever a system instruction is configured, and
`_ensure_system_message` prepends nothing when the first stored message
already has role system. -/
theorem system_message_invariant (cfg : Config) (env : Env Nat)
    (gateway : Nat → GatewayResponse) (prompt : String)
    (history0 : List Message) (enabled : Option (List String))
    (maxIter : Int) (schema : Bool)
    (Hgw : ∀ j m rest, (gateway j).choices = m :: rest →
      m.role ≠ "system")
    (Hh : systemOnlyAtHead history0) :
    systemOnlyAtHead (generate cfg env gateway prompt history0 enabled
        maxIter schema).history ∧
    systemCount (generate cfg env gateway prompt history0 enabled maxIter
        schema).history ≤ 1 ∧
    (∀ sm, mkSystemMessage cfg.instructions = some sm →
      (generate cfg env gateway prompt history0 enabled maxIter
          schema).history.head?.map Message.role = some "system") ∧
    (∀ sys first rest, history0 = first :: rest → first.role = "system" →
      ensureSystemMessage sys history0 = history0) := by
  obtain ⟨h1inv, h1cnt⟩ := ensureSystemMessage_invariant
    (mkSystemMessage cfg.instructions) history0 Hh
  have huser : ∀ m ∈ [userMessage prompt], m.role ≠ "system" := by
    intro m hm
    simp at hm
    subst hm
    simp [userMessage]
  have h2inv : systemOnlyAtHead
      (ensureSystemMessage (mkSystemMessage cfg.instructions) history0 ++
        [userMessage prompt]) :=
    systemOnlyAtHead_append _ _ h1inv huser
  have h2cnt : systemCount
      (ensureSystemMessage (mkSystemMessage cfg.instructions) history0 ++
        [userMessage prompt]) ≤ 1 := by
    rw [systemCount_append_of_no_system _ _ huser]
    exact h1cnt
  obtain ⟨ext, hext, hroles⟩ := genLoop_history_extension cfg env gateway
    (buildApiTools env.registry enabled) schema maxIter Hgw maxIter.toNat 0
    (ensureSystemMessage (mkSystemMessage cfg.instructions) history0 ++
      [userMessage prompt]) []
  have hout : (generate cfg env gateway prompt history0 enabled maxIter
      schema).history =
      (ensureSystemMessage (mkSystemMessage cfg.instructions) history0 ++
        [userMessage prompt]) ++ ext := by
    simpa [generate] using hext
  refine ⟨?_, ?_, ?_, ?_⟩
  · rw [hout]
    exact systemOnlyAtHead_append _ _ h2inv hroles
  · rw [hout, systemCount_append_of_no_system _ _ hroles]
    exact h2cnt
  · intro sm hsm
    have hne1 : ensureSystemMessage (mkSystemMessage cfg.instructions)
        history0 ≠ [] := by
      rw [hsm]
      exact ensureSystemMessage_ne_nil sm history0
    have hne2 : ensureSystemMessage (mkSystemMessage cfg.instructions)
        history0 ++ [userMessage prompt] ≠ [] := by
      simp
    rw [hout, List.head?_append_of_ne_nil _ hne2,
      List.head?_append_of_ne_nil _ hne1, hsm]
    exact ensureSystemMessage_head sm history0
      (mkSystemMessage_role cfg.instructions sm hsm)
  · intro sys first rest h0 hf
    cases sys with
    | none => rfl
    | some sm => simp [ensureSystemMessage, h0, hf]

theorem system_message_invariant_witness :
    systemOnlyAtHead (generate sampleCfg sampleEnv textGateway "hi" [] none
        3 false).history ∧
    systemCount (generate sampleCfg sampleEnv textGateway "hi" [] none 3
        false).history ≤ 1 ∧
    (generate sampleCfg sampleEnv textGateway "hi" [] none 3
        false).history.head?.map Message.role = some "system" := by
  have h := system_message_invariant sampleCfg sampleEnv textGateway "hi" []
    none 3 false
    (by
      intro j m rest hc
      simp [textGateway] at hc
      obtain ⟨h1, h2⟩ := hc
      subst h1
      decide)
    (by intro m hm; simp at hm)
  exact ⟨h.1, h.2.1,
    h.2.2.1 { role := "system", content := "be helpful" } (by decide)⟩
